import Mathlib

/-!
Verification of the job-control shell (`sh.c`, `parsing.c`, `lib_checks.c`).

The C program is shallowly embedded: C ints become `Int` (indices into the
token array become `Nat`), pointer-to-string arguments become `Option String`
(`none` models a NULL pointer), the global job list plus the `next_job`
counter become an explicit `ShellSt` value, and each side-effecting call
(writes, `kill`, `waitpid`, `tcsetpgrp`, `link`, ...) is recorded in an
effect trace.  Results of OS calls that the shell merely branches on
(`chdir`, `link`, `unlink`, the status filled in by `waitpid`) are supplied
by an `OS` oracle value.

`jobs.c` is not present under `src/` (only `jobs.h` users); its operations
are modelled from the spec, see the doc comments marked
`Modelled from the spec:`.
-/

namespace Shell

/-- Job lifecycle state, `RUNNING` / `STOPPED` from `jobs.h`. -/
inductive JState where
  | RUNNING
  | STOPPED
deriving DecidableEq, Repr

/-- One registry entry: shell job id, process-group id, state and the
command text (`none` models a NULL `char *` command). -/
structure Job where
  jid : Int
  pgid : Int
  state : JState
  cmd : Option String
deriving DecidableEq, Repr

/-- Modelled from the spec: `add_job` of the missing `jobs.c`
(§4.1 `add(job_id, pgid, state, command)`) — inserts a new entry,
insertion order is preserved (oldest job first). -/
def add_job (l : List Job) (jid pgid : Int) (s : JState) (cmd : Option String) :
    List Job :=
  l ++ [⟨jid, pgid, s, cmd⟩]

/-- Modelled from the spec: `remove_job_pid` of the missing `jobs.c`
(§4.1 `remove_by_pgid`) — deletes the entry for that process group
if present. -/
def remove_job_pid (l : List Job) (pgid : Int) : List Job :=
  l.filter (fun j => j.pgid ≠ pgid)

/-- Modelled from the spec: `update_job_pid` of the missing `jobs.c`
(§4.1 `update_state_by_pgid`) — transitions the state of the entry with
that pgid, no-op when the pgid is not registered. -/
def update_job_pid (l : List Job) (pgid : Int) (s : JState) : List Job :=
  l.map (fun j => if j.pgid = pgid then { j with state := s } else j)

/-- Modelled from the spec: `get_job_jid` of the missing `jobs.c`
(§4.1 `lookup_job_id_by_pgid`) — C convention: `-1` when absent. -/
def get_job_jid (l : List Job) (pgid : Int) : Int :=
  match l.find? (fun j => j.pgid = pgid) with
  | some j => j.jid
  | none => -1

/-- Modelled from the spec: `get_job_pid` of the missing `jobs.c`
(§4.1 `lookup_pgid_by_job_id`) — C convention: `-1` when absent. -/
def get_job_pid (l : List Job) (jid : Int) : Int :=
  match l.find? (fun j => j.jid = jid) with
  | some j => j.pgid
  | none => -1

/-- Semantic wait status, the value the `WIF*` / `W*SIG` / `WEXITSTATUS`
macros decode from the raw status word (§4.2 Status Translator). -/
inductive Status where
  | exited (code : Int)
  | signaled (sig : Int)
  | stopped (sig : Int)
  | continued
deriving DecidableEq, Repr

/-- `snprintf(output, 128, "[%d] (%d) %s\n", job, pgid, act)` of `reap`. -/
def reapLine (job pgid : Int) (act : String) : String :=
  "[" ++ toString job ++ "] (" ++ toString pgid ++ ") " ++ act ++ "\n"

/-- `reap(status, pgid)` from `sh.c`: looks up the jid, then branches on the
status exactly as the `WIFSIGNALED / WIFSTOPPED / WIFCONTINUED / WIFEXITED`
chain does; `code` is the local truthiness flag guarding the final print
(the `WIFEXITED` branch forces `code = 1`).  Returns the updated job list
and the lines written to stdout. -/
def reap (jobs : List Job) (status : Status) (pgid : Int) :
    List Job × List String :=
  let job := get_job_jid jobs pgid
  match status with
  | .signaled sig =>
      (remove_job_pid jobs pgid,
       if sig ≠ 0 then [reapLine job pgid ("terminated by signal " ++ toString sig)]
       else [])
  | .stopped sig =>
      (update_job_pid jobs pgid .STOPPED,
       if sig ≠ 0 then [reapLine job pgid ("suspended by signal " ++ toString sig)]
       else [])
  | .continued =>
      (update_job_pid jobs pgid .RUNNING,
       [reapLine job pgid "resumed"])
  | .exited c =>
      (remove_job_pid jobs pgid,
       [reapLine job pgid ("terminated with exit status " ++ toString c)])

/-- The pending child-status notifications the OS would hand out through
`waitpid(-1, &status, WNOHANG | WUNTRACED | WCONTINUED)`: one `(status, pid)`
pair per distinct state change, delivered in order. -/
structure OSPend where
  pending : List (Status × Int)
deriving DecidableEq, Repr

/-- `waitpid(-1, &status, WNOHANG | WUNTRACED | WCONTINUED)`: hands out the
next pending notification, or `none` (the C call returns `0` or `-1`/ECHILD)
when nothing is pending. -/
def waitpid_nohang (os : OSPend) : Option (Status × Int) × OSPend :=
  match os.pending with
  | [] => (none, os)
  | n :: rest => (some n, ⟨rest⟩)

/-- The reaping loop at the top of `main`:
`while ((pid = waitpid(-1, &status, WNOHANG|WUNTRACED|WCONTINUED)) > 0)
   reap(status, pid);`
Returns the final job list, the OS queue left over, and all lines printed. -/
def drain (jobs : List Job) (os : OSPend) : List Job × OSPend × List String :=
  match h : waitpid_nohang os with
  | (none, os') => (jobs, os', [])
  | (some (status, pid), os') =>
      let r := reap jobs status pid
      let d := drain r.1 os'
      (d.1, d.2.1, r.2 ++ d.2.2)
termination_by os.pending.length
decreasing_by
  simp only [waitpid_nohang] at h
  cases hp : os.pending with
  | nil => rw [hp] at h; simp at h
  | cons a rest =>
      rw [hp] at h
      simp only at h
      cases h
      simp [hp]

/-- Side effects the shell performs, in program order: stdout writes
(`checked_stdwrite`), stderr writes (`write(STDERR_FILENO, ...)`),
`perror(label)`, the file-system calls of the builtins, signal delivery,
the blocking `checked_waitpid`, terminal-ownership transfer
(`checked_setpgrp` → `tcsetpgrp`), `cleanup_job_list` and `exit`. -/
inductive Effect where
  | wout (s : String)
  | werr (s : String)
  | perr (label : String)
  | chdirE (path : Option String)
  | linkE (oldp newp : Option String)
  | unlinkE (path : Option String)
  | killE (pid sig : Int)
  | waitE (pid : Int)
  | tcsetE (pgid : Int)
  | cleanupE
  | exitE (code : Int)
deriving DecidableEq, Repr

/-- Linux `SIGCONT`. -/
def SIGCONT : Int := 18

/-- The shell's mutable globals: `my_jobs` and the `next_job` counter. -/
structure ShellSt where
  jobs : List Job
  next_job : Int
deriving DecidableEq, Repr

/-- Oracle for the results of OS calls the shell branches on: the return
values of `chdir` / `link` / `unlink`, the status stored by the blocking
`checked_waitpid`, and the `getpgrp()` result in `run_prog`'s epilogue. -/
structure OS where
  chdir_ret : Int
  link_ret : Int
  unlink_ret : Int
  wait_status : Status
  self_pgrp : Int
deriving DecidableEq, Repr

/-- `snprintf(output, 64, "[%d] (%d) %s %d\n", job, pgid, act, sig)` of
`handle_signals`. -/
def sigLine (job pgid : Int) (act : String) (sig : Int) : String :=
  "[" ++ toString job ++ "] (" ++ toString pgid ++ ") " ++ act ++ " "
    ++ toString sig ++ "\n"

/-- `handle_signals(status, pgid, cmd)` from `sh.c`.  Note the source looks
the job up with `get_job_pid(my_jobs, pgid)` — the jid-keyed lookup applied
to a pgid — which the embedding reproduces verbatim.  Only the
`WIFSIGNALED` and `WIFSTOPPED` branches set `sig`; the final print is
guarded by `sig != 0`.  No branch ever removes a job. -/
def handle_signals (st : ShellSt) (status : Status) (pgid : Int)
    (cmd : Option String) : ShellSt × List Effect :=
  let job := get_job_pid st.jobs pgid
  match status with
  | .signaled sig =>
      let job := if job < 0 then st.next_job else job
      (st,
       if sig ≠ 0 then [.wout (sigLine job pgid "terminated by signal" sig)]
       else [])
  | .stopped sig =>
      if job < 0 then
        (⟨add_job st.jobs st.next_job pgid .STOPPED cmd, st.next_job + 1⟩,
         if sig ≠ 0 then
           [.wout (sigLine st.next_job pgid "suspended by signal" sig)]
         else [])
      else
        (st,
         if sig ≠ 0 then [.wout (sigLine job pgid "suspended by signal" sig)]
         else [])
  | _ => (st, [])

/-- C `atoi` digit loop. -/
def atoiCore : List Char → Int → Int
  | c :: cs, acc =>
      if c.isDigit then atoiCore cs (acc * 10 + ((c.toNat - 48 : Nat) : Int))
      else acc
  | [], acc => acc

/-- C `atoi`: skips leading whitespace, an optional sign, then digits. -/
def atoi (s : String) : Int :=
  let l := s.toList.dropWhile (fun c => c = ' ' || c = '\t' || c = '\n')
  match l with
  | '-' :: rest => - atoiCore rest 0
  | '+' :: rest => atoiCore rest 0
  | _ => atoiCore l 0

/-- Modelled from the spec: `jobs(job_list)` of the missing `jobs.c`
(§4.6 / §6): one line per registered job,
`[<job_id>] (<pgid>) Running|Stopped`, in registry order. -/
def jobs_lines (l : List Job) : List String :=
  l.map (fun j =>
    "[" ++ toString j.jid ++ "] (" ++ toString j.pgid ++ ") "
      ++ (match j.state with
          | .RUNNING => "Running"
          | .STOPPED => "Stopped") ++ "\n")

/-- `exec_builtins(argv, argc)` from `sh.c`: the `strncmp` dispatch chain on
`argv[0]` (each `strncmp(cmd, lit, |lit|+1)` is equality with `lit`),
returning `-1` when no builtin matched, else `0`, together with the updated
globals and the effect trace.  Faithful quirks kept: the `ln` branch's
missing `else` (the link is attempted even after the syntax error), and the
`fg` branch's lack of any terminal-ownership transfer. -/
def exec_builtins (argv : List String) (argc : Int) (st : ShellSt) (os : OS) :
    Int × ShellSt × List Effect :=
  let cmd := argv.headD ""
  if cmd = "exit" then
    if argc ≠ 1 then (0, st, [.werr "exit: syntax error\n"])
    else (0, st, [.cleanupE, .exitE 0])
  else if cmd = "cd" then
    if argc ≠ 2 then (0, st, [.werr "cd: syntax error\n"])
    else if os.chdir_ret < 0 then (0, st, [.chdirE (argv.get? 1), .perr "cd"])
    else (0, st, [.chdirE (argv.get? 1)])
  else if cmd = "ln" then
    (0, st,
      (if argc ≠ 3 then [.werr "ln: syntax error\n"] else [])
        ++ [.linkE (argv.get? 1) (argv.get? 2)]
        ++ (if os.link_ret < 0 then [.perr "ln"] else []))
  else if cmd = "rm" then
    if argc ≠ 2 then (0, st, [.werr "rm: syntax error\n"])
    else if os.unlink_ret < 0 then
      (0, st, [.unlinkE (argv.get? 1), .perr "rm"])
    else (0, st, [.unlinkE (argv.get? 1)])
  else if cmd = "jobs" then
    if argc ≠ 1 then (0, st, [.werr "jobs: syntax error\n"])
    else (0, st, (jobs_lines st.jobs).map .wout)
  else if cmd = "fg" then
    if argc ≠ 2 then (0, st, [.werr "fg: syntax error\n"])
    else if ((argv.get? 1).getD "").toList.head? ≠ some '%' then
      (0, st, [.werr "fg: job input does not begin with %\n"])
    else
      let jid := atoi (((argv.get? 1).getD "").drop 1)
      let pid := get_job_pid st.jobs jid
      if pid < 0 then (0, st, [.werr "job not found\n"])
      else
        let st1 : ShellSt := ⟨update_job_pid st.jobs pid .RUNNING, st.next_job⟩
        let hs := handle_signals st1 os.wait_status pid none
        (0, hs.1, [.killE pid SIGCONT, .waitE pid] ++ hs.2)
  else if cmd = "bg" then
    if argc ≠ 2 then (0, st, [.werr "bg: syntax error\n"])
    else if ((argv.get? 1).getD "").toList.head? ≠ some '%' then
      (0, st, [.werr "bg: job input does not begin with %\n"])
    else
      let jid := atoi (((argv.get? 1).getD "").drop 1)
      let pid := get_job_pid st.jobs jid
      if pid < 0 then (0, st, [.werr "job not found\n"])
      else
        (0, ⟨update_job_pid st.jobs pid .RUNNING, st.next_job⟩,
         [.killE pid SIGCONT])
  else (-1, st, [])

/-- The 4-element `redir` array shared by `parse` and `run_prog`: index of
the input (`redir[0]`), output (`redir[1]`) and append (`redir[2]`) file in
the tokens array, and `redir[3]`, "reserved for information about process
redirection" (the background flag). -/
structure Redir where
  i0 : Nat
  i1 : Nat
  i2 : Nat
  i3 : Nat
deriving DecidableEq, Repr

/-- The array write `redir[mode] = v`.  `parsing.c` only ever writes modes
0..2 (the results of `id_rd_tok`); an out-of-range mode would hit
`redir[3]`. -/
def redirSet (r : Redir) (mode : Nat) (v : Nat) : Redir :=
  match mode with
  | 0 => { r with i0 := v }
  | 1 => { r with i1 := v }
  | 2 => { r with i2 := v }
  | _ => { r with i3 := v }

/-- `id_rd_tok(tok)` from `parsing.c`: NULL ↦ -1, `<` ↦ 0, `>` ↦ 1,
`>>` ↦ 2, anything else ↦ -1 (each `strncmp(tok, lit, |lit|+1)` is
string equality with `lit`). -/
def id_rd_tok : Option String → Int
  | none => -1
  | some tok =>
      if tok = "<" then 0
      else if tok = ">" then 1
      else if tok = ">>" then 2
      else -1

/-- Parsing state threaded through `set_tok` / `handle_redir` / `parse`:
the words `strtok` has not yet handed out, the log of writes into the
`tokens` array (index, stored pointer; `none` is a NULL store), the running
`offset` between the argv and tokens arrays, and the `redir` array. -/
structure PSt where
  rest : List String
  tokens : List (Nat × Option String)
  offset : Nat
  redir : Redir
deriving DecidableEq, Repr

/-- `strtok(NULL, "\t ")`: hands out the next word or NULL. -/
def strtokNext (st : PSt) : Option String × PSt :=
  match st.rest with
  | [] => (none, st)
  | t :: rest => (some t, { st with rest := rest })

/-- `set_tok(&tok, mode, i, &offset, tokens, redir)` from `parsing.c`:
stores the redirection symbol at `tokens[i+offset]`, consumes the file
token (erroring on a missing file, a redirection symbol in file position,
or a duplicate redirection — each error carrying its stderr message and
the state at failure), stores the file, records its index in
`redir[mode]`, and advances `tok` to the word after the file (erroring if
none remain while argv is still empty, `i = 0`). -/
def set_tok (tok : String) (mode i : Nat) (st : PSt) :
    Except (String × PSt) (Option String × PSt) :=
  let st1 : PSt := { st with tokens := st.tokens ++ [(i + st.offset, some tok)],
                             offset := st.offset + 1 }
  match st1.rest with
  | [] =>
      .error
        (if mode = 0 then "syntax error: no input file\n"
         else "syntax error: no output file\n", st1)
  | f :: rest' =>
      let st2 : PSt := { st1 with rest := rest' }
      if id_rd_tok (some f) ≥ 0 then
        .error ("syntax error: input file is a redirection symbol\n", st2)
      else if mode = 0 ∧ st2.redir.i0 ≠ 0 then
        .error ("syntax error: multiple input files\n", st2)
      else if (mode = 1 ∨ mode = 2) ∧ st2.redir.i1 + st2.redir.i2 ≠ 0 then
        .error ("syntax error: multiple output files\n", st2)
      else
        let st3 : PSt :=
          { st2 with tokens := st2.tokens ++ [(i + st2.offset, some f)],
                     redir := redirSet st2.redir mode (i + st2.offset),
                     offset := st2.offset + 1 }
        let n := strtokNext st3
        match n.1 with
        | none =>
            if i = 0 then .error ("error: redirects with no command\n", n.2)
            else .ok (none, n.2)
        | some t => .ok (some t, n.2)

/-- The parsing state an `Except`-valued parsing step leaves behind,
error or not (in C, the arrays are the caller's and keep their contents on
the error return). -/
def outSt : Except (String × PSt) (Option String × PSt) → PSt
  | .error (_, s) => s
  | .ok (_, s) => s

/-- `handle_redir(tok, tokens, &offset, redir, i)` from `parsing.c`: the
`while ((mode = id_rd_tok(tok)) >= 0)` loop calling `set_tok` until the
current token is not a redirection symbol; a `set_tok` failure propagates
(the C `(char *)1` error pointer becomes `.error`). -/
def handle_redir (tok : Option String) (i : Nat) (st : PSt) :
    Except (String × PSt) (Option String × PSt) :=
  match tok with
  | none => .ok (none, st)
  | some t =>
      if 0 ≤ id_rd_tok (some t) then
        match hs : set_tok t (id_rd_tok (some t)).toNat i st with
        | .error e => .error e
        | .ok (tok', st') => handle_redir tok' i st'
      else .ok (some t, st)
termination_by st.rest.length
decreasing_by
  simp only [set_tok] at hs
  rcases hrest : st.rest with _ | ⟨f, rest'⟩ <;> rw [hrest] at hs
  · simp at hs
  · simp only at hs
    split at hs
    · cases hs
    · split at hs
      · cases hs
      · split at hs
        · cases hs
        · rcases hr' : rest' with _ | ⟨x, rest''⟩ <;>
            rw [hr'] at hs <;> simp only [strtokNext] at hs
          · split at hs
            · cases hs
            · cases hs
              simp [hrest]
          · cases hs
            simp [hrest, hr']
            omega

/-- `strrchr(tok, '/')` for a token containing a slash: the suffix starting
at the LAST `/`.  (`parse` then uses it directly as `argv[0]` — the
`arg0++` that would skip the slash is commented out in the source.) -/
def suffixFromLastSlash : List Char → List Char
  | [] => []
  | c :: cs =>
      if '/' ∈ cs then suffixFromLastSlash cs
      else if c = '/' then c :: cs
      else []

/-- The `for (i = 1; i < 512 && curr_tok != NULL; i++)` loop of `parse`:
each iteration pulls the next word, runs `handle_redir`, then stores the
resulting token at `tokens[i+offset]` and `argv[i]` (the final iteration
stores NULL, terminating argv).  Returns the exit value of `i`, the final
token, state and argv log. -/
def parseLoop (i : Nat) (tok : Option String) (st : PSt)
    (argv : List (Option String)) :
    Except (String × PSt) (Nat × Option String × PSt × List (Option String)) :=
  if h : i < 512 ∧ tok ≠ none then
    let n := strtokNext st
    match handle_redir n.1 i n.2 with
    | .error e => .error e
    | .ok (tok', st') =>
        let st'' : PSt :=
          { st' with tokens := st'.tokens ++ [(i + st'.offset, tok')] }
        parseLoop (i + 1) tok' st'' (argv ++ [tok'])
  else .ok (i, tok, st, argv)
termination_by 512 - i
decreasing_by omega

/-- The parsing state `parseLoop` leaves behind, error or not. -/
def outStL :
    Except (String × PSt) (Nat × Option String × PSt × List (Option String)) →
      PSt
  | .error (_, s) => s
  | .ok (_, _, s, _) => s

/-- `parse(buffer, tokens, argv, redir)` from `parsing.c`, with the buffer
pre-split by `strtok(buffer, "\t ")` into `words`.  Returns the C return
value (`i - 1`, or -1 on error), the final state (whose `redir` field is
the caller-visible `redir` array — also on error paths) and the argv log.
The final background check
`if (strncmp(argv[i - 2], "&", 2)) { redir[3] == 1; }` compares instead of
assigning: the guarded statement is an effect-free expression, so the
embedding records no state change there. -/
def parse (words : List String) (redir0 : Redir) :
    Int × PSt × List (Option String) :=
  let st0 : PSt := ⟨words, [], 0, redir0⟩
  let n := strtokNext st0
  match handle_redir n.1 0 n.2 with
  | .error (_, stE) => (-1, stE, [])
  | .ok (none, stN) => (-1, stN, [])
  | .ok (some t, st1) =>
      let st2 : PSt := { st1 with tokens := st1.tokens ++ [(st1.offset, some t)] }
      let argv0 : Option String :=
        if t.toList.head? = some '/' then
          some (String.mk (suffixFromLastSlash t.toList))
        else some t
      match parseLoop 1 (some t) st2 [argv0] with
      | .error (_, stE) => (-1, stE, [])
      | .ok (i, _, st3, argv) =>
          -- if (strncmp(argv[i - 2], "&", 2)) { redir[3] == 1; } : no effect
          ((i : Int) - 1, st3, argv)

/-- The `f_index` loop of `run_prog`: locates the index of the resolved
executable path in the tokens array from the redirection indices
(unrolled `for (int i = 0; i < 3; i++)`). -/
def f_index (r : Redir) : Nat :=
  let fi : Nat := 0
  let fi := if r.i0 = 1 ∨ (fi = 1 ∧ r.i0 = 3) then fi + 2 else fi
  let fi := if r.i1 = 1 ∨ (fi = 1 ∧ r.i1 = 3) then fi + 2 else fi
  let fi := if r.i2 = 1 ∨ (fi = 1 ∧ r.i2 = 3) then fi + 2 else fi
  fi

/-- The parent side of `run_prog(argv, tokens, redir)` from `sh.c`, after
`fork()` returned the child's pid.  `bg = redir[3]` selects the branch:
background registers the job under `next_job` (incrementing it) and prints
`[jid] (pid)`; foreground blocks in `checked_waitpid(pid, &status,
WUNTRACED)` and runs `handle_signals`.  Both then run the epilogue that
returns terminal control to the shell's own group
(`getpgrp()` from the oracle, fatal path if it is negative, else
`checked_setpgrp`). -/
def run_prog_parent (st : ShellSt) (pid : Int) (tokens : List (Option String))
    (redir : Redir) (os : OS) : ShellSt × List Effect :=
  let bg := redir.i3
  let cmdTok : Option String := ((tokens.get? (f_index redir)).getD none)
  let epilogue : List Effect :=
    if os.self_pgrp < 0 then [.perr "getpgid", .cleanupE, .exitE 1]
    else [.tcsetE os.self_pgrp]
  if bg ≠ 0 then
    let jobs' := add_job st.jobs st.next_job pid .RUNNING cmdTok
    let job := get_job_jid jobs' pid
    (⟨jobs', st.next_job + 1⟩,
     [.wout ("[" ++ toString job ++ "] (" ++ toString pid ++ ")\n")]
       ++ epilogue)
  else
    let hs := handle_signals st os.wait_status pid cmdTok
    (hs.1, [.waitE pid] ++ hs.2 ++ epilogue)

/-- One registry-touching step of a shell session, as dispatched by `main`:
an external program launch (`run_prog`), a builtin (`exec_builtins`,
covering `fg`/`bg` and the others), or one Reaper iteration (`reap`). -/
inductive Ev where
  | runProgE (pid : Int) (tokens : List (Option String)) (redir : Redir)
      (os : OS)
  | builtinE (argv : List String) (argc : Int) (os : OS)
  | reapE (status : Status) (pgid : Int)

/-- Effect of one session event on the shell's globals
(`my_jobs`, `next_job`). -/
def step (st : ShellSt) : Ev → ShellSt
  | .runProgE pid tokens redir os => (run_prog_parent st pid tokens redir os).1
  | .builtinE argv argc os => (exec_builtins argv argc st os).2.1
  | .reapE status pgid => ⟨(reap st.jobs status pgid).1, st.next_job⟩

/-- Run a session: fold `step` over an event list. -/
def runSt (st : ShellSt) : List Ev → ShellSt
  | [] => st
  | e :: es => runSt (step st e) es

/-- The job ids `[a, a+1, ..., b-1]` (empty when `b ≤ a`). -/
def idsBetween (a b : Int) : List Int :=
  (List.range (b - a).toNat).map (fun (k : Nat) => a + (k : Int))

/-- The job ids consumed from the `next_job` counter by one step — in the
source every `next_job++` is immediately paired with the `add_job` that
registers that id, so these are exactly the ids assigned during the step. -/
def stepAssigns (st : ShellSt) (e : Ev) : List Int :=
  idsBetween st.next_job (step st e).next_job

/-- All job ids assigned over a session, in order. -/
def assigns (st : ShellSt) : List Ev → List Int
  | [] => []
  | e :: es => stepAssigns st e ++ assigns (step st e) es

/-- The shell's initial globals: empty job list, `next_job = 1`. -/
def initSt : ShellSt := ⟨[], 1⟩

/-- Registry/counter invariant: every registered job id is below the
`next_job` counter. -/
def JidsLt (st : ShellSt) : Prop := ∀ j ∈ st.jobs, j.jid < st.next_job

theorem drain_pending_empty (jobs : List Job) (os : OSPend) :
    (drain jobs os).2.1.pending = [] := by
  obtain ⟨l⟩ := os
  induction l generalizing jobs with
  | nil => rw [drain.eq_def]; simp [waitpid_nohang]
  | cons a rest ih =>
      obtain ⟨s, p⟩ := a
      rw [drain.eq_def]
      simp only [waitpid_nohang]
      exact ih _

/-- A drain on a quiescent OS queue (no pending notifications) leaves the
registry untouched and prints nothing: `waitpid` returns no child and the
loop body never runs. -/
theorem drain_quiescent (jobs : List Job) (os : OSPend) (h : os.pending = []) :
    drain jobs os = (jobs, os, []) := by
  obtain ⟨l⟩ := os
  simp only at h
  subst h
  rw [drain.eq_def]
  simp [waitpid_nohang]

/-- C8: invoking the Reaper drain loop a second time immediately after a
drain that consumed all pending child-status notifications performs no
registry mutation and prints nothing — the drain is idempotent on the
quiescent state. -/
theorem drain_idempotent_on_quiescent (jobs : List Job) (os : OSPend) :
    drain (drain jobs os).1 (drain jobs os).2.1
      = ((drain jobs os).1, (drain jobs os).2.1, []) :=
  drain_quiescent _ _ (drain_pending_empty jobs os)

/-- C4 counterexample: pgid 100 has no registry entry, yet the Reaper
handling an Exited status for it prints a (nonsense, job id -1) notification
line — refuting the claim that nothing is printed for unregistered pgids. -/
theorem reap_unregistered_exit_prints_cx :
    (reap [] (.exited 0) 100).2 = ["[-1] (100) terminated with exit status 0\n"]
    ∧ (reap [] (.exited 0) 100).2 ≠ [] := by decide

/-- C4 amended: for every Exited or Signaled (nonzero signal) status whose
pgid has no registry entry, the Reaper still prints a termination
notification, using job id -1 (the failed lookup); the `code` flag guarding
the print is forced nonzero on both paths. -/
theorem reap_unregistered_prints_jid_neg_one (jobs : List Job) (pgid c sig : Int)
    (hjid : get_job_jid jobs pgid = -1) (hsig : sig ≠ 0) :
    (reap jobs (.exited c) pgid).2
        = [reapLine (-1) pgid ("terminated with exit status " ++ toString c)]
    ∧ (reap jobs (.signaled sig) pgid).2
        = [reapLine (-1) pgid ("terminated by signal " ++ toString sig)] := by
  constructor <;> simp [reap, hjid, hsig]

theorem reap_unregistered_prints_jid_neg_one_witness :
    get_job_jid [] 200 = -1 ∧ (9:Int) ≠ 0
    ∧ ((reap [] (.exited 7) 200).2
          = [reapLine (-1) 200 ("terminated with exit status " ++ toString (7:Int))]
       ∧ (reap [] (.signaled 9) 200).2
          = [reapLine (-1) 200 ("terminated by signal " ++ toString (9:Int))]) :=
  ⟨by decide, by decide,
   reap_unregistered_prints_jid_neg_one [] 200 7 9 (by decide) (by decide)⟩

/-- C5 counterexample: a registered background job (jid 1, pgid 100) exits
normally; the Reaper prints `[1] (100) terminated with exit status 0`,
refuting the claim that no exit-status line is produced. -/
theorem reap_bg_normal_exit_prints_cx :
    (reap [⟨1, 100, .RUNNING, some "/bin/sleep"⟩] (.exited 0) 100).2
      = ["[1] (100) terminated with exit status 0\n"]
    ∧ (reap [⟨1, 100, .RUNNING, some "/bin/sleep"⟩] (.exited 0) 100).2 ≠ [] := by
  decide

/-- C5 amended: a background job that exits normally is removed from the
registry AND the Reaper prints the `terminated with exit status` line for it
(the `WIFEXITED` branch forces the print flag to 1). -/
theorem reap_exit_removes_and_prints (jobs : List Job) (pgid c : Int) :
    (reap jobs (.exited c) pgid).1 = remove_job_pid jobs pgid
    ∧ (∀ j ∈ (reap jobs (.exited c) pgid).1, j.pgid ≠ pgid)
    ∧ (reap jobs (.exited c) pgid).2
        = [reapLine (get_job_jid jobs pgid) pgid
            ("terminated with exit status " ++ toString c)] := by
  refine ⟨rfl, ?_, rfl⟩
  intro j hj
  simp only [reap, remove_job_pid, List.mem_filter, decide_eq_true_eq] at hj
  exact hj.2

/-- C6 counterexample: pgid 100 is not registered and a Stopped status for it
is drained; the claim says it must be registered (with the next job id and
state Stopped), but the registry stays empty and the notification carries
job id -1. -/
theorem reap_stopped_unregistered_cx :
    (reap [] (.stopped 20) 100).1 = []
    ∧ (reap [] (.stopped 20) 100).2 = ["[-1] (100) suspended by signal 20\n"] := by
  decide

/-- C6 amended: on a Stopped status the Reaper never registers a new job; it
only updates the state of an already-registered pgid to STOPPED
(`update_job_pid` is a no-op for unregistered pgids), and always prints the
suspend notification with the looked-up job id (-1 when unregistered). -/
theorem reap_stopped_update_only (jobs : List Job) (pgid sig : Int)
    (hsig : sig ≠ 0) :
    (reap jobs (.stopped sig) pgid).1 = update_job_pid jobs pgid .STOPPED
    ∧ (reap jobs (.stopped sig) pgid).2
        = [reapLine (get_job_jid jobs pgid) pgid
            ("suspended by signal " ++ toString sig)] := by
  exact ⟨rfl, by simp [reap, hsig]⟩

/-- Every effect `handle_signals` emits is a stdout write: it never touches
the terminal ownership, never signals, never removes a job. -/
theorem handle_signals_effects_wout (st : ShellSt) (s : Status) (p : Int)
    (c : Option String) :
    ∀ e ∈ (handle_signals st s p c).2, ∃ str, e = .wout str := by
  unfold handle_signals
  cases s <;> simp <;> split_ifs <;> simp

/-- C2 (code bug): the success path of `fg %1` sends SIGCONT and blocks in
`checked_waitpid`, but its trace contains no terminal-ownership transfer at
all — neither before the wait (claim: ownership moves to the job's group)
nor after it (claim: the shell's group regains ownership) — for every
possible wait outcome. -/
theorem fg_no_terminal_transfer (os : OS) :
    Effect.killE 100 SIGCONT ∈
      (exec_builtins ["fg", "%1"] 2
        ⟨[⟨1, 100, .STOPPED, some "/bin/sleep"⟩], 2⟩ os).2.2
    ∧ ∀ g, Effect.tcsetE g ∉
      (exec_builtins ["fg", "%1"] 2
        ⟨[⟨1, 100, .STOPPED, some "/bin/sleep"⟩], 2⟩ os).2.2 := by
  have hj : get_job_pid [⟨1, 100, .STOPPED, some "/bin/sleep"⟩]
      (atoi (("%1" : String).drop 1)) = 100 := by decide
  constructor
  · simp [exec_builtins, hj]
  · intro g hmem
    simp only [exec_builtins] at hmem
    simp [hj] at hmem
    rcases handle_signals_effects_wout _ _ _ _ _ hmem with ⟨str, hstr⟩
    exact Effect.noConfusion hstr

/-- C3 (code bug): a registered stopped job (jid 1, pgid 100) is resumed
with `fg %1` and then exits normally; `handle_signals` has no removal
branch, so the registry still holds the (now dead) process group, marked
Running — the claimed registry invariant is violated. -/
theorem fg_exit_leaves_registry_entry :
    ((exec_builtins ["fg", "%1"] 2
        ⟨[⟨1, 100, .STOPPED, some "/bin/sleep"⟩], 2⟩
        ⟨0, 0, 0, .exited 0, 100⟩).2.1).jobs
      = [⟨1, 100, .RUNNING, some "/bin/sleep"⟩] := by decide

/-- C9 (code bug): the `ln` branch is missing an `else`, so `ln` with the
wrong argument count prints `ln: syntax error` and then still calls
`link(argv[1], argv[2])` (here `link("a", NULL)`), for every oracle and
shell state. -/
theorem ln_wrong_argc_still_links (st : ShellSt) (os : OS) :
    (exec_builtins ["ln", "a"] 2 st os).2.2
      = [.werr "ln: syntax error\n", .linkE (some "a") none]
          ++ (if os.link_ret < 0 then [.perr "ln"] else [])
    ∧ Effect.linkE (some "a") none ∈ (exec_builtins ["ln", "a"] 2 st os).2.2 := by
  constructor
  · simp [exec_builtins]
  · simp [exec_builtins]

/-- C10: the `exit` builtin terminates the shell — clearing the job registry
(`cleanup_job_list`) and then calling `exit(0)` — only when invoked with no
arguments (argc = 1); with any other argument count it prints
`exit: syntax error` and returns 0 with the registry unchanged. -/
theorem exit_builtin_behavior (argv : List String) (argc : Int) (st : ShellSt)
    (os : OS) (hcmd : argv.headD "" = "exit") :
    (argc = 1 →
      exec_builtins argv argc st os = (0, st, [.cleanupE, .exitE 0]))
    ∧ (argc ≠ 1 →
      exec_builtins argv argc st os = (0, st, [.werr "exit: syntax error\n"])) := by
  constructor
  · intro h1
    simp only [exec_builtins]
    rw [hcmd]
    simp [h1]
  · intro h1
    simp only [exec_builtins]
    rw [hcmd]
    simp [h1]

theorem exit_builtin_behavior_witness :
    ((["exit"] : List String).headD "" = "exit"
      ∧ ((1:Int) = 1 →
          exec_builtins ["exit"] 1 ⟨[], 1⟩ ⟨0, 0, 0, .exited 0, 100⟩
            = (0, ⟨[], 1⟩, [.cleanupE, .exitE 0])))
    ∧ ((["exit", "now"] : List String).headD "" = "exit"
      ∧ ((2:Int) ≠ 1 →
          exec_builtins ["exit", "now"] 2 ⟨[], 1⟩ ⟨0, 0, 0, .exited 0, 100⟩
            = (0, ⟨[], 1⟩, [.werr "exit: syntax error\n"]))) :=
  ⟨⟨by decide,
    (exit_builtin_behavior ["exit"] 1 ⟨[], 1⟩ ⟨0, 0, 0, .exited 0, 100⟩
      (by decide)).1⟩,
   ⟨by decide,
    (exit_builtin_behavior ["exit", "now"] 2 ⟨[], 1⟩ ⟨0, 0, 0, .exited 0, 100⟩
      (by decide)).2⟩⟩

theorem reap_stopped_update_only_witness :
    (20:Int) ≠ 0
    ∧ ((reap [⟨1, 100, .RUNNING, some "/bin/sleep"⟩] (.stopped 20) 100).1
          = update_job_pid [⟨1, 100, .RUNNING, some "/bin/sleep"⟩] 100 .STOPPED
       ∧ (reap [⟨1, 100, .RUNNING, some "/bin/sleep"⟩] (.stopped 20) 100).2
          = [reapLine (get_job_jid [⟨1, 100, .RUNNING, some "/bin/sleep"⟩] 100) 100
              ("suspended by signal " ++ toString (20:Int))]) :=
  ⟨by decide,
   reap_stopped_update_only [⟨1, 100, .RUNNING, some "/bin/sleep"⟩] 100 20 (by decide)⟩

theorem mem_update_job_pid {l : List Job} {p : Int} {s : JState} {j : Job}
    (hj : j ∈ update_job_pid l p s) : ∃ j' ∈ l, j.jid = j'.jid := by
  rcases List.mem_map.1 hj with ⟨j', hj', heq⟩
  refine ⟨j', hj', ?_⟩
  subst heq
  by_cases h : j'.pgid = p <;> simp [h]

theorem mem_reap_jobs {jobs : List Job} {s : Status} {p : Int} {j : Job}
    (hj : j ∈ (reap jobs s p).1) : ∃ j' ∈ jobs, j.jid = j'.jid := by
  cases s <;> simp only [reap] at hj
  · exact ⟨j, (List.mem_filter.1 hj).1, rfl⟩
  · exact ⟨j, (List.mem_filter.1 hj).1, rfl⟩
  · exact mem_update_job_pid hj
  · exact mem_update_job_pid hj

theorem handle_signals_next_job_le (st : ShellSt) (s : Status) (p : Int)
    (c : Option String) :
    st.next_job ≤ (handle_signals st s p c).1.next_job := by
  unfold handle_signals
  cases s <;> dsimp only <;> try omega
  split_ifs <;> dsimp only <;> omega

theorem handle_signals_inv (st : ShellSt) (s : Status) (p : Int)
    (c : Option String) (hinv : JidsLt st) :
    JidsLt (handle_signals st s p c).1 := by
  unfold handle_signals JidsLt add_job
  cases s <;> dsimp only <;> try exact hinv
  split_ifs <;> dsimp only <;> try exact hinv
  all_goals
    intro j hj
    rcases List.mem_append.1 hj with hj | hj
    · have := hinv j hj
      omega
    · simp only [List.mem_singleton] at hj
      subst hj
      simp only
      omega

theorem exec_builtins_state (argv : List String) (argc : Int) (st : ShellSt)
    (os : OS) :
    (exec_builtins argv argc st os).2.1 = st
    ∨ (∃ pid, (exec_builtins argv argc st os).2.1
        = ⟨update_job_pid st.jobs pid .RUNNING, st.next_job⟩)
    ∨ (∃ pid, (exec_builtins argv argc st os).2.1
        = (handle_signals ⟨update_job_pid st.jobs pid .RUNNING, st.next_job⟩
            os.wait_status pid none).1) := by
  unfold exec_builtins
  dsimp only
  by_cases h1 : argv.headD "" = "exit"
  · rw [if_pos h1]; split_ifs <;> exact Or.inl rfl
  rw [if_neg h1]
  by_cases h2 : argv.headD "" = "cd"
  · rw [if_pos h2]; split_ifs <;> exact Or.inl rfl
  rw [if_neg h2]
  by_cases h3 : argv.headD "" = "ln"
  · rw [if_pos h3]; exact Or.inl rfl
  rw [if_neg h3]
  by_cases h4 : argv.headD "" = "rm"
  · rw [if_pos h4]; split_ifs <;> exact Or.inl rfl
  rw [if_neg h4]
  by_cases h5 : argv.headD "" = "jobs"
  · rw [if_pos h5]; split_ifs <;> exact Or.inl rfl
  rw [if_neg h5]
  by_cases h6 : argv.headD "" = "fg"
  · rw [if_pos h6]
    split_ifs <;>
      first
        | exact Or.inl rfl
        | exact Or.inr (Or.inr ⟨_, rfl⟩)
  rw [if_neg h6]
  by_cases h7 : argv.headD "" = "bg"
  · rw [if_pos h7]
    split_ifs <;>
      first
        | exact Or.inl rfl
        | exact Or.inr (Or.inl ⟨_, rfl⟩)
  rw [if_neg h7]
  exact Or.inl rfl

theorem step_next_job_le (st : ShellSt) (e : Ev) :
    st.next_job ≤ (step st e).next_job := by
  cases e with
  | runProgE pid tokens redir os =>
      unfold step run_prog_parent
      dsimp only
      split_ifs <;> dsimp only <;>
        first
          | omega
          | exact handle_signals_next_job_le st os.wait_status pid _
  | builtinE argv argc os =>
      unfold step
      dsimp only
      rcases exec_builtins_state argv argc st os with h | ⟨pid, h⟩ | ⟨pid, h⟩ <;>
        rw [h] <;>
        first
          | omega
          | exact handle_signals_next_job_le
              ⟨update_job_pid st.jobs pid .RUNNING, st.next_job⟩
              os.wait_status pid none
  | reapE status pgid =>
      unfold step
      dsimp only
      exact le_refl _

theorem step_inv (st : ShellSt) (e : Ev) (hinv : JidsLt st) :
    JidsLt (step st e) := by
  cases e with
  | runProgE pid tokens redir os =>
      unfold step run_prog_parent add_job
      dsimp only
      split_ifs <;> dsimp only <;>
        first
          | exact handle_signals_inv st os.wait_status pid _ hinv
          | (intro j hj
             dsimp only at hj ⊢
             rcases List.mem_append.1 hj with hj | hj
             · have := hinv j hj
               omega
             · simp only [List.mem_singleton] at hj
               subst hj
               dsimp only
               omega)
  | builtinE argv argc os =>
      unfold step
      dsimp only
      rcases exec_builtins_state argv argc st os with h | ⟨pid, h⟩ | ⟨pid, h⟩ <;>
        rw [h]
      · exact hinv
      · intro j hj
        rcases mem_update_job_pid hj with ⟨j', hj', heq⟩
        exact heq ▸ hinv j' hj'
      · apply handle_signals_inv
        intro j hj
        rcases mem_update_job_pid hj with ⟨j', hj', heq⟩
        exact heq ▸ hinv j' hj'
  | reapE status pgid =>
      unfold step
      dsimp only
      intro j hj
      rcases mem_reap_jobs hj with ⟨j', hj', heq⟩
      exact heq ▸ hinv j' hj'

theorem mem_idsBetween {a b x : Int} (h : x ∈ idsBetween a b) :
    a ≤ x ∧ x < b := by
  unfold idsBetween at h
  rcases List.mem_map.1 h with ⟨k, hk, rfl⟩
  rw [List.mem_range] at hk
  omega

theorem pairwise_idsBetween (a b : Int) :
    (idsBetween a b).Pairwise (· < ·) := by
  unfold idsBetween
  refine List.Pairwise.map _ ?_ (List.pairwise_lt_range (b - a).toNat)
  intro x y h
  omega

theorem assigns_lb (st : ShellSt) (evs : List Ev) :
    ∀ x ∈ assigns st evs, st.next_job ≤ x := by
  induction evs generalizing st with
  | nil => simp [assigns]
  | cons e es ih =>
      intro x hx
      rcases List.mem_append.1 hx with hx | hx
      · exact (mem_idsBetween hx).1
      · exact le_trans (step_next_job_le st e) (ih (step st e) x hx)

theorem assigns_pairwise (st : ShellSt) (evs : List Ev) :
    (assigns st evs).Pairwise (· < ·) := by
  induction evs generalizing st with
  | nil => simp [assigns]
  | cons e es ih =>
      apply List.pairwise_append.2
      refine ⟨pairwise_idsBetween _ _, ih _, ?_⟩
      intro x hx y hy
      have hxb := (mem_idsBetween hx).2
      have hyb := assigns_lb (step st e) es y hy
      omega

theorem runSt_inv (st : ShellSt) (evs : List Ev) (hinv : JidsLt st) :
    JidsLt (runSt st evs) := by
  induction evs generalizing st with
  | nil => exact hinv
  | cons e es ih => exact ih _ (step_inv st e hinv)

/-- C7: over every sequence of session events (background launches,
foreground waits, builtins, Reaper iterations) starting from the initial
shell state, the job ids assigned from the `next_job` counter are strictly
increasing, and at every point a newly assigned id differs from the id of
every job still registered. -/
theorem job_ids_increasing_and_fresh (evs : List Ev) :
    (assigns initSt evs).Pairwise (· < ·)
    ∧ ∀ (e : Ev) (id : Int), id ∈ stepAssigns (runSt initSt evs) e →
        ∀ j ∈ (runSt initSt evs).jobs, j.jid ≠ id := by
  refine ⟨assigns_pairwise _ _, ?_⟩
  intro e id hid j hj
  have h1 := (mem_idsBetween hid).1
  have h2 := runSt_inv initSt evs (by intro j hj; simp [initSt] at hj) j hj
  omega

theorem job_ids_increasing_and_fresh_witness :
    (assigns initSt
        [.runProgE 100 [some "/bin/ls"] ⟨0, 0, 0, 1⟩ ⟨0, 0, 0, .exited 0, 50⟩,
         .runProgE 200 [some "/bin/cat"] ⟨0, 0, 0, 1⟩
           ⟨0, 0, 0, .exited 0, 50⟩]).Pairwise (· < ·)
    ∧ (3 : Int) ∈ stepAssigns
        (runSt initSt
          [.runProgE 100 [some "/bin/ls"] ⟨0, 0, 0, 1⟩ ⟨0, 0, 0, .exited 0, 50⟩,
           .runProgE 200 [some "/bin/cat"] ⟨0, 0, 0, 1⟩
             ⟨0, 0, 0, .exited 0, 50⟩])
        (.runProgE 300 [some "/bin/pwd"] ⟨0, 0, 0, 1⟩ ⟨0, 0, 0, .exited 0, 50⟩)
    ∧ (⟨1, 100, .RUNNING, some "/bin/ls"⟩ : Job) ∈ (runSt initSt
          [.runProgE 100 [some "/bin/ls"] ⟨0, 0, 0, 1⟩ ⟨0, 0, 0, .exited 0, 50⟩,
           .runProgE 200 [some "/bin/cat"] ⟨0, 0, 0, 1⟩
             ⟨0, 0, 0, .exited 0, 50⟩]).jobs
    ∧ (⟨1, 100, .RUNNING, some "/bin/ls"⟩ : Job).jid ≠ 3 :=
  ⟨(job_ids_increasing_and_fresh
      [.runProgE 100 [some "/bin/ls"] ⟨0, 0, 0, 1⟩ ⟨0, 0, 0, .exited 0, 50⟩,
       .runProgE 200 [some "/bin/cat"] ⟨0, 0, 0, 1⟩
         ⟨0, 0, 0, .exited 0, 50⟩]).1,
   by decide, by decide,
   (job_ids_increasing_and_fresh
      [.runProgE 100 [some "/bin/ls"] ⟨0, 0, 0, 1⟩ ⟨0, 0, 0, .exited 0, 50⟩,
       .runProgE 200 [some "/bin/cat"] ⟨0, 0, 0, 1⟩
         ⟨0, 0, 0, .exited 0, 50⟩]).2
     (.runProgE 300 [some "/bin/pwd"] ⟨0, 0, 0, 1⟩ ⟨0, 0, 0, .exited 0, 50⟩)
     3 (by decide) ⟨1, 100, .RUNNING, some "/bin/ls"⟩ (by decide)⟩

theorem redirSet_i3 (r : Redir) (mode v : Nat) (hm : mode < 3) :
    (redirSet r mode v).i3 = r.i3 := by
  unfold redirSet
  rcases mode with _ | _ | _ | m
  · rfl
  · rfl
  · rfl
  · omega

theorem id_rd_tok_toNat_lt3 (o : Option String) : (id_rd_tok o).toNat < 3 := by
  cases o with
  | none => decide
  | some t =>
      simp only [id_rd_tok]
      split_ifs <;> decide

theorem strtokNext_redir (st : PSt) : (strtokNext st).2.redir = st.redir := by
  rcases st with ⟨rest, tk, off, rd⟩
  cases rest <;> rfl

theorem set_tok_rest_lt (tok : String) (mode i : Nat) (st : PSt)
    (tok' : Option String) (st' : PSt)
    (hs : set_tok tok mode i st = .ok (tok', st')) :
    st'.rest.length < st.rest.length := by
  simp only [set_tok] at hs
  rcases hrest : st.rest with _ | ⟨f, rest'⟩ <;> rw [hrest] at hs
  · simp at hs
  · simp only at hs
    split at hs
    · cases hs
    · split at hs
      · cases hs
      · split at hs
        · cases hs
        · rcases hr' : rest' with _ | ⟨x, rest''⟩ <;>
            rw [hr'] at hs <;> simp only [strtokNext] at hs
          · split at hs
            · cases hs
            · cases hs
              simp [hrest]
          · cases hs
            simp [hrest, hr']
            omega

theorem set_tok_i3 (tok : String) (mode i : Nat) (st : PSt) (hm : mode < 3) :
    (outSt (set_tok tok mode i st)).redir.i3 = st.redir.i3 := by
  rcases hrest : st.rest with _ | ⟨f, rest'⟩
  · simp [set_tok, hrest, outSt]
  · rcases rest' with _ | ⟨x, rest''⟩ <;>
      simp only [set_tok, hrest, strtokNext] <;>
      split_ifs <;>
      simp [outSt, redirSet_i3 _ mode _ hm]

theorem handle_redir_i3 (tok : Option String) (i : Nat) (st : PSt) :
    (outSt (handle_redir tok i st)).redir.i3 = st.redir.i3 := by
  suffices h : ∀ (n : Nat) (tok : Option String) (st : PSt),
      st.rest.length < n →
      (outSt (handle_redir tok i st)).redir.i3 = st.redir.i3 from
    h (st.rest.length + 1) tok st (Nat.lt_succ_self _)
  intro n
  induction n with
  | zero => intro tok st h0; omega
  | succ n ih =>
      intro tok st hlt
      rw [handle_redir.eq_def]
      cases tok with
      | none => simp [outSt]
      | some t =>
          dsimp only
          split_ifs with h
          · have h3 := set_tok_i3 t (id_rd_tok (some t)).toNat i st
              (id_rd_tok_toNat_lt3 _)
            split
            next e hs =>
              rw [hs] at h3
              simpa [outSt] using h3
            next tok' st' hs =>
              rw [hs] at h3
              simp only [outSt] at h3
              have hr := set_tok_rest_lt t (id_rd_tok (some t)).toNat i st
                tok' st' hs
              rw [ih tok' st' (by omega)]
              exact h3
          · simp [outSt]

theorem parseLoop_i3 (i : Nat) (tok : Option String) (st : PSt)
    (argv : List (Option String)) :
    (outStL (parseLoop i tok st argv)).redir.i3 = st.redir.i3 := by
  suffices h : ∀ (n i : Nat) (tok : Option String) (st : PSt)
      (argv : List (Option String)), 512 - i < n →
      (outStL (parseLoop i tok st argv)).redir.i3 = st.redir.i3 from
    h (512 - i + 1) i tok st argv (Nat.lt_succ_self _)
  intro n
  induction n with
  | zero => intro i tok st argv h0; omega
  | succ n ih =>
      intro i tok st argv hlt
      rw [parseLoop.eq_def]
      split_ifs with h
      · dsimp only
        have hhr := handle_redir_i3 (strtokNext st).1 i (strtokNext st).2
        rw [strtokNext_redir] at hhr
        split
        next e heq =>
          rw [heq] at hhr
          simpa [outStL, outSt] using hhr
        next tok' st' heq =>
          rw [heq] at hhr
          simp only [outSt] at hhr
          rw [ih (i + 1) tok' _ _ (by omega)]
          exact hhr
      · simp [outStL]

theorem parse_redir3_preserved (words : List String) (redir0 : Redir) :
    (parse words redir0).2.1.redir.i3 = redir0.i3 := by
  unfold parse
  dsimp only
  have hhr := handle_redir_i3 (strtokNext ⟨words, [], 0, redir0⟩).1 0
    (strtokNext ⟨words, [], 0, redir0⟩).2
  rw [strtokNext_redir] at hhr
  split
  next _ stE heq => rw [heq] at hhr; simpa [outSt] using hhr
  next stN heq => rw [heq] at hhr; simpa [outSt] using hhr
  next t st1 heq =>
      rw [heq] at hhr
      simp only [outSt] at hhr
      have hpl := parseLoop_i3 1 (some t)
        { st1 with tokens := st1.tokens ++ [(st1.offset, some t)] }
        [if t.toList.head? = some '/' then
            some (String.mk (suffixFromLastSlash t.toList))
          else some t]
      split
      next _ stE heq2 =>
        rw [heq2] at hpl
        simp only [outStL] at hpl
        simpa using hpl.trans hhr
      next i tk st3 argv heq2 =>
        rw [heq2] at hpl
        simp only [outStL] at hpl
        simpa using hpl.trans hhr

/-- C1: `parse` leaves the background flag `redir[3]` unchanged on every
input: `redir[mode]` writes only use modes 0..2, and the final last-token
`&` test guards the no-op comparison `redir[3] == 1;` instead of an
assignment.  With `main`'s zero-initialised array this means `redir[3]`
stays 0 — no command line, even one whose final token is `&` (third
conjunct), is ever reported to the dispatcher as a background command. -/
theorem parse_never_sets_bg (words : List String) (redir0 : Redir) :
    (parse words redir0).2.1.redir.i3 = redir0.i3
    ∧ (parse words ⟨0, 0, 0, 0⟩).2.1.redir.i3 = 0
    ∧ (parse ["sleep", "100", "&"] ⟨0, 0, 0, 0⟩).2.1.redir.i3 = 0 :=
  ⟨parse_redir3_preserved words redir0,
   parse_redir3_preserved words ⟨0, 0, 0, 0⟩,
   parse_redir3_preserved ["sleep", "100", "&"] ⟨0, 0, 0, 0⟩⟩

end Shell
